import Mathlib

/-!
Verification of the static codebase model builder of this repository:
dependency extraction (`src/parsing/dependencies.ts`, `parseDeps`), module
analysis, layer classification, dependency resolution and report rendering
(`ArchitectureAnalyzer`).  The Babel syntax tree is modelled by the inductive
`Ast`; the Babel `traverse` preorder walk with the analyzer's visitors is
embedded as structurally recursive Lean functions.  JavaScript's fractional
complexity increments (0.5 steps) are modelled in half-units as naturals;
`jsRound2 k` is `Math.round (k / 2)` for `k` half-units.
-/

namespace Hooker

/-! ## String helpers (JS `includes`, `endsWith`, `split`, `toLowerCase`) -/

/-- Test `listStartsWith s pat`: `pat` is a prefix of `s` (character lists). -/
def listStartsWith : List Char → List Char → Bool
  | _, [] => true
  | [], _ :: _ => false
  | a :: s, b :: p => a = b && listStartsWith s p

/-- Test `listEndsWith s pat`: `pat` is a suffix of `s`; like JS `endsWith`,
an empty `pat` always succeeds. -/
def listEndsWith (s pat : List Char) : Bool :=
  listStartsWith s.reverse pat.reverse

/-- Test `listHasSub pat s`: `pat` occurs as a contiguous substring of `s`;
like JS `includes`, an empty `pat` always succeeds. -/
def listHasSub (pat : List Char) : List Char → Bool
  | [] => pat.isEmpty
  | c :: rest => listStartsWith (c :: rest) pat || listHasSub pat rest

/-- JS `s.includes(sub)`. -/
def strContains (s sub : String) : Bool :=
  listHasSub sub.data s.data

/-- JS `s.endsWith(suf)`. -/
def strEndsWith (s suf : String) : Bool :=
  listEndsWith s.data suf.data

/-- JS `s.toLowerCase()` (ASCII, which is all the analyzer compares). -/
def strToLower (s : String) : String :=
  ⟨s.data.map Char.toLower⟩

/-- Drop the last `n` characters of `s`. -/
def strDropRight (s : String) (n : Nat) : String :=
  ⟨s.data.take (s.data.length - n)⟩

/-- Auxiliary splitter: JS `s.split(c)` over character lists. -/
def splitCharAux (c : Char) : List Char → List Char → List (List Char)
  | [], acc => [acc.reverse]
  | x :: xs, acc =>
    if x = c then acc.reverse :: splitCharAux c xs []
    else splitCharAux c xs (x :: acc)

/-- JS `s.split(c)` for a one-character separator (the code only splits on
`"/"` and `"."`). -/
def strSplitOnChar (c : Char) (s : String) : List String :=
  (splitCharAux c s.data []).map fun l => ⟨l⟩

/-- JS `Math.round (k / 2)` for `k` half-units: JS rounds `.5` up. -/
def jsRound2 (k : Nat) : Nat := (k + 1) / 2

/-! ## The syntax tree

A Babel AST as consumed by the analyzer's visitors.  Node kinds without any
visitor (return statements, binary expressions, blocks, literals, …) are
collapsed into `other`; identifier and string-literal expressions are kept
because the `require`-call detection of `parseDeps` inspects them.  Child
lists use the mutually inductive `AstList` so that all recursions below are
structural (hence kernel-computable).  Optional child nodes
(`ExportNamedDeclaration.declaration`, `VariableDeclarator.init`,
`SwitchCase.test`, `TryStatement.handler`) are encoded as an `AstList` that
is empty or a singleton. -/

mutual

inductive Ast : Type where
  | importDecl (source : String)
  | exportNamedDecl (decl : AstList) (source : Option String)
  | exportDefaultDecl (decl : Ast)
  | exportAllDecl (source : String)
  | functionDecl (id : Option String) (params : AstList) (body : AstList)
  | functionExpr (params : AstList) (body : AstList)
  | arrowFunctionExpr (params : AstList) (body : AstList)
  | objectMethod (key : Option String) (params : AstList) (body : AstList)
  | classDecl (id : Option String) (body : AstList)
  | varDeclarator (id : Option String) (init : AstList)
  | ifStmt (test : Ast) (consequent : AstList) (alternate : AstList)
  | whileStmt (test : Ast) (body : AstList)
  | doWhileStmt (test : Ast) (body : AstList)
  | forStmt (body : AstList)
  | forInStmt (body : AstList)
  | forOfStmt (body : AstList)
  | switchStmt (disc : Ast) (cases : AstList)
  | switchCase (test : AstList) (body : AstList)
  | tryStmt (block : AstList) (handler : AstList) (finalizer : AstList)
  | catchClause (body : AstList)
  | logicalExpr (op : String) (left : Ast) (right : Ast)
  | conditionalExpr (test : Ast) (consequent : Ast) (alternate : Ast)
  | awaitExpr (argument : Ast)
  | callExpr (callee : Ast) (args : AstList)
  | ident (name : String)
  | strLit (value : String)
  | other (children : AstList)

inductive AstList : Type where
  | nil
  | cons (head : Ast) (tail : AstList)

end

/-- Convert a plain list of nodes into an `AstList`. -/
def AstList.ofList : List Ast → AstList
  | [] => .nil
  | a :: l => .cons a (AstList.ofList l)

/-- Whether an `AstList` is empty (used for the `SwitchCase.test` presence
check, JS `path.node.test` truthiness). -/
def AstList.isNil : AstList → Bool
  | .nil => true
  | .cons _ _ => false

/-- JS `arguments.some((arg) => t.isFunctionExpression(arg) ||
t.isArrowFunctionExpression(arg))` — the callback-argument test of the
`CallExpression` visitors. -/
def hasFnArg : AstList → Bool
  | .nil => false
  | .cons (.functionExpr _ _) _ => true
  | .cons (.arrowFunctionExpr _ _) _ => true
  | .cons _ t => hasFnArg t

/-! ## `calculateFunctionComplexity`

`calculateFunctionComplexity` starts at 1 and runs `path.traverse` over the
descendants of the function node.  `fcNode n` is the total of all half-unit
increments produced by the node `n` itself and its subtree under that inner
visitor; nested function nodes add the rounded sub-score
(`complexity += this.calculateFunctionComplexity(nested)`) and, since the
walk does not skip their bodies, their inner constructs are also counted
again directly. -/

mutual

def fcNode : Ast → Nat
  | .importDecl _ => 0
  | .exportNamedDecl d _ => fcList d
  | .exportDefaultDecl d => fcNode d
  | .exportAllDecl _ => 0
  | .functionDecl _ ps b =>
      2 * jsRound2 (2 + (fcList ps + fcList b)) + (fcList ps + fcList b)
  | .functionExpr ps b =>
      2 * jsRound2 (2 + (fcList ps + fcList b)) + (fcList ps + fcList b)
  | .arrowFunctionExpr ps b =>
      2 * jsRound2 (2 + (fcList ps + fcList b)) + (fcList ps + fcList b)
  | .objectMethod _ ps b =>
      2 * jsRound2 (2 + (fcList ps + fcList b)) + (fcList ps + fcList b)
  | .classDecl _ b => fcList b
  | .varDeclarator _ i => fcList i
  | .ifStmt t c a => 2 + fcNode t + fcList c + fcList a
  | .whileStmt t b => 2 + fcNode t + fcList b
  | .doWhileStmt t b => 2 + fcNode t + fcList b
  | .forStmt b => 2 + fcList b
  | .forInStmt b => 2 + fcList b
  | .forOfStmt b => 2 + fcList b
  | .switchStmt d cs => fcNode d + fcList cs
  | .switchCase t b => (if t.isNil then 0 else 2) + fcList t + fcList b
  | .tryStmt blk h fin => fcList blk + fcList h + fcList fin
  | .catchClause b => 2 + fcList b
  | .logicalExpr op l r =>
      (if op = "&&" || op = "||" then 1 else 0) + fcNode l + fcNode r
  | .conditionalExpr t c a => 2 + fcNode t + fcNode c + fcNode a
  | .awaitExpr a => 1 + fcNode a
  | .callExpr callee args =>
      (if hasFnArg args then 1 else 0) + fcNode callee + fcList args
  | .ident _ => 0
  | .strLit _ => 0
  | .other cs => fcList cs

def fcList : AstList → Nat
  | .nil => 0
  | .cons h t => fcNode h + fcList t

end

/-- Source `calculateFunctionComplexity` for a function with parameter list `params`
and body `body`: base 1 plus all inner increments, `Math.round`ed.  All four
function kinds (declaration, function expression, arrow function, object
method) call this same computation. -/
def calcFC (params body : AstList) : Nat :=
  jsRound2 (2 + (fcList params + fcList body))

/-! ## `analyzeModule`'s file-level traversal

The accumulator gathers the four closure-captured mutable variables of
`analyzeModule` (`exports`, `functions`, `classes`, `complexity`); `cx` is
the complexity in half-units. -/

structure Acc where
  exports : List String
  functions : List String
  classes : List String
  cx : Nat
deriving DecidableEq, Repr

def Acc.empty : Acc := ⟨[], [], [], 0⟩

def Acc.append (a b : Acc) : Acc :=
  ⟨a.exports ++ b.exports, a.functions ++ b.functions,
   a.classes ++ b.classes, a.cx + b.cx⟩

/-- Contribution of the `ExportNamedDeclaration` visitor: a function or
class declaration with an id pushes its name onto `exports` and onto
`functions` resp. `classes`; anything else (variable declarations,
specifier-only re-exports) contributes nothing. -/
def exportNamedAcc : AstList → Acc
  | .cons (.functionDecl (some nm) _ _) _ => ⟨[nm], [nm], [], 0⟩
  | .cons (.classDecl (some nm) _) _ => ⟨[nm], [], [nm], 0⟩
  | _ => Acc.empty

/-! The file-level `traverse(ast, visitor)` of `analyzeModule`: a preorder
walk firing each node's visitor and then descending into all children.
`pv` carries the variable name when the parent node is a
`VariableDeclarator` with an identifier id (the
`FunctionExpression`/`ArrowFunctionExpression` visitors read
`path.parentPath.node.id.name`). -/

mutual

def visitNode (pv : Option String) : Ast → Acc
  | .importDecl _ => Acc.empty
  | .exportNamedDecl d _ => Acc.append (exportNamedAcc d) (visitList none d)
  | .exportDefaultDecl d =>
      Acc.append ⟨["default"], [], [], 0⟩ (visitNode none d)
  | .exportAllDecl _ => Acc.empty
  | .functionDecl id ps b =>
      Acc.append ⟨[], id.toList, [], 2 * calcFC ps b⟩
        (Acc.append (visitList none ps) (visitList none b))
  | .functionExpr ps b =>
      Acc.append ⟨[], pv.toList, [], 2 * calcFC ps b⟩
        (Acc.append (visitList none ps) (visitList none b))
  | .arrowFunctionExpr ps b =>
      Acc.append ⟨[], pv.toList, [], 2 * calcFC ps b⟩
        (Acc.append (visitList none ps) (visitList none b))
  | .objectMethod key ps b =>
      Acc.append ⟨[], key.toList, [], 2 * calcFC ps b⟩
        (Acc.append (visitList none ps) (visitList none b))
  | .classDecl id b => Acc.append ⟨[], [], id.toList, 4⟩ (visitList none b)
  | .varDeclarator id init => visitList id init
  | .ifStmt t c a =>
      Acc.append ⟨[], [], [], 2⟩
        (Acc.append (visitNode none t)
          (Acc.append (visitList none c) (visitList none a)))
  | .whileStmt t b =>
      Acc.append ⟨[], [], [], 2⟩
        (Acc.append (visitNode none t) (visitList none b))
  | .doWhileStmt t b => Acc.append (visitNode none t) (visitList none b)
  | .forStmt b => Acc.append ⟨[], [], [], 2⟩ (visitList none b)
  | .forInStmt b => visitList none b
  | .forOfStmt b => visitList none b
  | .switchStmt d cs =>
      Acc.append ⟨[], [], [], 2⟩
        (Acc.append (visitNode none d) (visitList none cs))
  | .switchCase t b => Acc.append (visitList none t) (visitList none b)
  | .tryStmt blk h fin =>
      Acc.append ⟨[], [], [], 2⟩
        (Acc.append (visitList none blk)
          (Acc.append (visitList none h) (visitList none fin)))
  | .catchClause b => visitList none b
  | .logicalExpr op l r =>
      Acc.append ⟨[], [], [], if op = "&&" || op = "||" then 1 else 0⟩
        (Acc.append (visitNode none l) (visitNode none r))
  | .conditionalExpr t c a =>
      Acc.append ⟨[], [], [], 2⟩
        (Acc.append (visitNode none t)
          (Acc.append (visitNode none c) (visitNode none a)))
  | .awaitExpr a => Acc.append ⟨[], [], [], 1⟩ (visitNode none a)
  | .callExpr callee args =>
      Acc.append ⟨[], [], [], if hasFnArg args then 1 else 0⟩
        (Acc.append (visitNode none callee) (visitList none args))
  | .ident _ => Acc.empty
  | .strLit _ => Acc.empty
  | .other cs => visitList none cs

def visitList (pv : Option String) : AstList → Acc
  | .nil => Acc.empty
  | .cons h t => Acc.append (visitNode pv h) (visitList pv t)

end

/-! ## Module records -/

structure ModuleInfo where
  path : String
  name : String
  /-- The raw dependency specifier set (`Set<string>` in JS: insertion
  ordered, duplicate-free). -/
  dependencies : List String
  exports : List String
  functions : List String
  classes : List String
  size : Nat
  complexity : Nat
deriving DecidableEq, Repr

/-- Strip a trailing `.js`/`.ts`/`.jsx`/`.tsx`: the regex
`/\.(js|ts|jsx|tsx)$/` used by `getModuleName` and by the resolver's
`depName`. -/
def stripJsExt (s : String) : String :=
  if strEndsWith s ".jsx" then strDropRight s 4
  else if strEndsWith s ".tsx" then strDropRight s 4
  else if strEndsWith s ".js" then strDropRight s 3
  else if strEndsWith s ".ts" then strDropRight s 3
  else s

/-- Source `getModuleName`: basename without a script extension, `"unknown"` when
that leaves the empty string (the `|| "unknown"` fallback on JS falsiness). -/
def getModuleName (filePath : String) : String :=
  let stripped := stripJsExt ((strSplitOnChar '/' filePath).getLastD "")
  if stripped = "" then "unknown" else stripped

/-- Source `createEmptyModuleInfo`: the degraded record returned when the read or
the parse of a file fails.  Note `size := 0` unconditionally. -/
def createEmptyModuleInfo (filePath : String) (deps : List String) :
    ModuleInfo :=
  ⟨filePath, getModuleName filePath, deps, [], [], [], 0, 0⟩

/-- The success path of `analyzeModule`: traverse the parsed program and
assemble the record; the accumulated complexity is `Math.round`ed. -/
def analyzeParsed (filePath : String) (deps : List String) (code : String)
    (prog : AstList) : ModuleInfo :=
  let a := visitList none prog
  ⟨filePath, getModuleName filePath, deps, a.exports, a.functions, a.classes,
   code.length, jsRound2 a.cx⟩

/-- Source `analyzeModule`: the file read and the Babel parse are external
collaborators, modelled as an optional text (`none` = `readFileSafe` threw)
and a parse oracle (`none` = `parse` threw). -/
def analyzeModule (filePath : String) (deps : List String)
    (read : Option String) (parseAst : String → Option AstList) : ModuleInfo :=
  match read with
  | none => createEmptyModuleInfo filePath deps
  | some code =>
    match parseAst code with
    | none => createEmptyModuleInfo filePath deps
    | some prog => analyzeParsed filePath deps code prog

/-! ## Layer classification -/

/-- Exported-name test of `classifyByContent` for API semantics. -/
def hasApiExports (m : ModuleInfo) : Bool :=
  m.exports.any fun e =>
    strContains (strToLower e) "fetch" || strContains (strToLower e) "api" ||
      strContains (strToLower e) "service"

/-- Exported-name test of `classifyByContent` for UI semantics. -/
def hasUiExports (m : ModuleInfo) : Bool :=
  m.exports.any fun e =>
    strContains (strToLower e) "component" ||
      strContains (strToLower e) "view" || strContains (strToLower e) "hook"

/-- Exported-name test of `classifyByContent` for data semantics. -/
def hasDataExports (m : ModuleInfo) : Bool :=
  m.exports.any fun e =>
    strContains (strToLower e) "model" || strContains (strToLower e) "store" ||
      strContains (strToLower e) "repository"

/-- Exported-name test of `classifyByContent` for utility semantics. -/
def hasUtilExports (m : ModuleInfo) : Bool :=
  m.exports.any fun e =>
    strContains (strToLower e) "util" || strContains (strToLower e) "helper" ||
      strContains (strToLower e) "format"

/-- Source `classifyByContent`: content-based pre-classification.  The API/UI/data
branches require a corroborating path substring; the utilities branch fires
on exported names alone. -/
def classifyByContent (m : ModuleInfo) : Option String :=
  let path := strToLower m.path
  if hasApiExports m && (strContains path "api" || strContains path "service")
    then some "API Layer"
  else if hasUiExports m &&
      (strContains path "component" || strContains path "ui")
    then some "UI Components"
  else if hasDataExports m &&
      (strContains path "model" || strContains path "data")
    then some "Data Layer"
  else if hasUtilExports m then some "Utilities"
  else none

/-- Source `classifyModule`: the full ordered if/else chain — content rule, then
FSD, DDD and atomic-design path conventions, then generic role folders and
name keywords, then the size/complexity fallback, then `"Unknown"`. -/
def classifyModule (m : ModuleInfo) : String :=
  let path := strToLower m.path
  let name := strToLower m.name
  match classifyByContent m with
  | some c => c
  | none =>
    if strContains path "/app/" then "FSD: App Layer"
    else if strContains path "/processes/" then "FSD: Processes"
    else if strContains path "/pages/" then "FSD: Pages"
    else if strContains path "/widgets/" then "FSD: Widgets"
    else if strContains path "/features/" then "FSD: Features"
    else if strContains path "/entities/" then "FSD: Entities"
    else if strContains path "/shared/" then "FSD: Shared"
    else if strContains path "/domain/" then "DDD: Domain"
    else if strContains path "/application/" then "DDD: Application"
    else if strContains path "/infrastructure/" then "DDD: Infrastructure"
    else if strContains path "/presentation/" then "DDD: Presentation"
    else if strContains path "/aggregate/" then "DDD: Aggregate"
    else if strContains path "/repository/" then "DDD: Repository"
    else if strContains path "/service/" then "DDD: Service"
    else if strContains path "/valueobject/" || strContains name "valueobject"
      then "DDD: Value Object"
    else if strContains path "/entity/" || strContains name "entity"
      then "DDD: Entity"
    else if strContains path "/atoms/" || strContains name "atom"
      then "Atomic: Atom"
    else if strContains path "/molecules/" || strContains name "molecule"
      then "Atomic: Molecule"
    else if strContains path "/organisms/" || strContains name "organism"
      then "Atomic: Organism"
    else if strContains path "/templates/" || strContains name "template"
      then "Atomic: Template"
    else if strContains path "/pages/" || strContains name "page"
      then "Atomic: Page"
    else if strContains path "/api/" || strContains path "/service" ||
        strContains path "/client" || strContains path "/endpoint" ||
        strContains name "api" || strContains name "service" ||
        strContains name "client" || strContains name "endpoint" ||
        strContains name "controller"
      then "API Layer"
    else if strContains path "/component" || strContains path "/ui/" ||
        strContains path "/view" || strContains path "/pages" ||
        strContains path "/screens" || strContains name "component" ||
        strContains name "view" || strContains name "page" ||
        strContains name "screen" || strContains name "hook" ||
        m.exports.any (fun e => strContains (strToLower e) "component")
      then "UI Components"
    else if strContains path "/model" || strContains path "/store" ||
        strContains path "/data/" || strContains path "/repository" ||
        strContains path "/dao" || strContains name "model" ||
        strContains name "store" || strContains name "repository" ||
        strContains name "dao" || strContains name "schema"
      then "Data Layer"
    else if strContains path "/util" || strContains path "/helper" ||
        strContains path "/lib/" || strContains path "/utils" ||
        strContains name "util" || strContains name "helper" ||
        strContains name "tool" || strContains name "utils"
      then "Utilities"
    else if strContains path "/config" || strContains path "/setting" ||
        strContains path "/env" || strContains name "config" ||
        strContains name "setting" || strContains name "environment" ||
        strContains name "env"
      then "Configuration"
    else if strContains path "/middleware" || strContains path "/server" ||
        strContains path "/plugin" || strContains name "middleware" ||
        strContains name "server" || strContains name "plugin"
      then "Infrastructure"
    else if 15 < m.complexity || 8 < m.functions.length ||
        2 < m.classes.length
      then "Business Logic"
    else "Unknown"

/-! ## `categorizeModules` -/

structure ArchitectureLayer where
  name : String
  modules : List ModuleInfo
  color : String
deriving DecidableEq, Repr

/-- The eight fixed buckets, in source order; the last one, `"Unknown"`,
is the `layers[layers.length - 1]` fallback. -/
def initialLayers : List ArchitectureLayer :=
  [⟨"API Layer", [], "#FF6B6B"⟩, ⟨"Business Logic", [], "#4ECDC4"⟩,
   ⟨"Data Layer", [], "#45B7D1"⟩, ⟨"UI Components", [], "#96CEB4"⟩,
   ⟨"Utilities", [], "#FFEAA7"⟩, ⟨"Configuration", [], "#DDA0DD"⟩,
   ⟨"Infrastructure", [], "#C7B198"⟩, ⟨"Unknown", [], "#95A5A6"⟩]

/-- Push `m` into the first layer named `lname`
(`layers.find((l) => l.name === layer)` + `push`). -/
def addFirstMatch : List ArchitectureLayer → String → ModuleInfo →
    List ArchitectureLayer
  | [], _, _ => []
  | l :: ls, lname, m =>
    if l.name == lname then { l with modules := l.modules ++ [m] } :: ls
    else l :: addFirstMatch ls lname m

/-- Push `m` into the last layer (`layers[layers.length - 1]` fallback). -/
def addToLast : List ArchitectureLayer → ModuleInfo → List ArchitectureLayer
  | [], _ => []
  | [l], m => [{ l with modules := l.modules ++ [m] }]
  | l :: l' :: ls, m => l :: addToLast (l' :: ls) m

/-- One iteration of the `categorizeModules` loop: classify `m` and push it
into the matching layer, or into the last (`"Unknown"`) layer when no layer
carries the returned label (e.g. the `"FSD: …"` labels). -/
def placeModule (layers : List ArchitectureLayer) (m : ModuleInfo) :
    List ArchitectureLayer :=
  let lname := classifyModule m
  if layers.any fun l => l.name == lname then addFirstMatch layers lname m
  else addToLast layers m

/-- Source `categorizeModules` over the batch (the `modules` map's values in
insertion order): distribute every record, then drop empty layers. -/
def categorizeModules (mods : List ModuleInfo) : List ArchitectureLayer :=
  (mods.foldl placeModule initialLayers).filter fun l => !l.modules.isEmpty

/-! ## `findModuleByDependency` and the dependency matrix -/

/-- JS `dep.split("/").pop()?.replace(/\.(js|ts|jsx|tsx)$/, "")`. -/
def stripDepExtName (dep : String) : String :=
  stripJsExt ((strSplitOnChar '/' dep).getLastD "")

/-- JS `module.path.split("/").pop()` — the raw basename, extension kept. -/
def rawBasename (m : ModuleInfo) : String :=
  (strSplitOnChar '/' m.path).getLastD ""

/-- JS `p.split("/").slice(0, -1).join("/")` — the containing directory. -/
def dirOf (p : String) : String :=
  String.intercalate "/" (strSplitOnChar '/' p).dropLast

/-- The first loop of `findModuleByDependency`: exact comparison of the
candidate's raw basename against the whole specifier or against the
extension-stripped final specifier segment (guarded by JS truthiness of
`depName`). -/
def findExact (mods : List ModuleInfo) (dep : String) : Option ModuleInfo :=
  let depName := stripDepExtName dep
  mods.find? fun m =>
    rawBasename m == dep || (depName != "" && rawBasename m == depName)

/-- The second loop of `findModuleByDependency`: directory-suffix
correspondence or substring containment between the specifier's stripped
basename and the candidate's display name, in either direction. -/
def findPartial (mods : List ModuleInfo) (dep : String) : Option ModuleInfo :=
  let depName := stripDepExtName dep
  let depDir := dirOf dep
  mods.find? fun m =>
    strEndsWith (dirOf m.path) depDir || strEndsWith depDir (dirOf m.path) ||
      (depName != "" && strContains m.name depName) ||
      (depName != "" && strContains depName m.name)

/-- Source `findModuleByDependency`: the exact loop, then the partial loop. -/
def findModuleByDependency (mods : List ModuleInfo) (dep : String) :
    Option ModuleInfo :=
  match findExact mods dep with
  | some m => some m
  | none => findPartial mods dep

/-- The Resolved Graph has an edge `i → j` iff some raw specifier of `i`
resolves to `j` (this is how `generateMermaidDiagram` draws edges). -/
def resolvedEdge (mods : List ModuleInfo) (i j : ModuleInfo) : Bool :=
  i.dependencies.any fun d =>
    decide (findModuleByDependency mods d = some j)

/-- JS `targetModule.path.replace(/\.ts$/, "")` and the `.js` analogue. -/
def stripSuffixStr (p suf : String) : String :=
  if strEndsWith p suf then strDropRight p suf.length else p

/-- The `hasDependency` cell test of `generateDependencyMatrix`: pure
raw-set membership of the target's path, display name, or `.ts`/`.js`
extension-stripped path.  The Resolved Graph is not consulted. -/
def matrixCell (source target : ModuleInfo) : Bool :=
  source.dependencies.contains target.path ||
    source.dependencies.contains target.name ||
    source.dependencies.contains (stripSuffixStr target.path ".ts") ||
    source.dependencies.contains (stripSuffixStr target.path ".js")

/-! ## `parseDeps` (dependency extraction) -/

/-- The dependency-collecting visitors of `parseDeps` on a `CallExpression`:
`require(...)` and `__webpack_require__(...)` with exactly one argument
that is a string literal. -/
def requireDep (callee : Ast) (args : AstList) : List String :=
  match callee, args with
  | .ident nm, .cons (.strLit v) .nil =>
    if nm = "require" || nm = "__webpack_require__" then [v] else []
  | _, _ => []

/-! The specifier-collecting traversal of `parseDeps`: static imports,
named re-exports with a source, wildcard re-exports, and the two loader
call shapes, gathered in preorder. -/

mutual

def depsNode : Ast → List String
  | .importDecl src => [src]
  | .exportNamedDecl d srcOpt =>
      (match srcOpt with | some s => [s] | none => []) ++ depsList d
  | .exportDefaultDecl d => depsNode d
  | .exportAllDecl src => [src]
  | .functionDecl _ ps b => depsList ps ++ depsList b
  | .functionExpr ps b => depsList ps ++ depsList b
  | .arrowFunctionExpr ps b => depsList ps ++ depsList b
  | .objectMethod _ ps b => depsList ps ++ depsList b
  | .classDecl _ b => depsList b
  | .varDeclarator _ i => depsList i
  | .ifStmt t c a => depsNode t ++ depsList c ++ depsList a
  | .whileStmt t b => depsNode t ++ depsList b
  | .doWhileStmt t b => depsNode t ++ depsList b
  | .forStmt b => depsList b
  | .forInStmt b => depsList b
  | .forOfStmt b => depsList b
  | .switchStmt d cs => depsNode d ++ depsList cs
  | .switchCase t b => depsList t ++ depsList b
  | .tryStmt blk h fin => depsList blk ++ depsList h ++ depsList fin
  | .catchClause b => depsList b
  | .logicalExpr _ l r => depsNode l ++ depsNode r
  | .conditionalExpr t c a => depsNode t ++ depsNode c ++ depsNode a
  | .awaitExpr a => depsNode a
  | .callExpr callee args => requireDep callee args ++ depsNode callee ++ depsList args
  | .ident _ => []
  | .strLit _ => []
  | .other cs => depsList cs

def depsList : AstList → List String
  | .nil => []
  | .cons h t => depsNode h ++ depsList t

end

/-- JS `Set<string>` accumulation: keep the first occurrence of each
specifier. -/
def dedupKeepFirst (l : List String) : List String :=
  l.foldl (fun acc x => if acc.contains x then acc else acc ++ [x]) []

/-- Node's `extname(file)`: the final `.`-suffix of the basename, empty for
extension-less names and pure dotfiles. -/
def extname (p : String) : String :=
  let base := (strSplitOnChar '/' p).getLastD ""
  match strSplitOnChar '.' base with
  | [] => ""
  | [_] => ""
  | ["", _] => ""
  | parts => "." ++ parts.getLastD ""

/-- The supported script extensions of `parseDeps`. -/
def jsExts : List String := [".js", ".ts", ".jsx", ".tsx"]

/-- JS `raw.replace(/\/\*[\s\S]*?\*\/|\/\/.*/g, "")` — skip past the closing
`*/` of a block comment; an unclosed `/*` is not a match and stays. -/
def findBlockEnd : List Char → Option (List Char)
  | [] => none
  | '*' :: '/' :: rest => some rest
  | _ :: rest => findBlockEnd rest

/-- Line comments run to the end of the line; the newline survives
(`.` does not match `\n`). -/
def dropUntilNewline : List Char → List Char
  | [] => []
  | '\n' :: rest => '\n' :: rest
  | _ :: rest => dropUntilNewline rest

/-- Comment-stripping scan; the fuel argument (instantiated with the input
length, an upper bound on the number of steps) keeps the recursion
structural. -/
def stripAux : Nat → List Char → List Char
  | 0, l => l
  | _ + 1, [] => []
  | fuel + 1, '/' :: '*' :: rest =>
    (match findBlockEnd rest with
     | some rem => stripAux fuel rem
     | none => '/' :: '*' :: stripAux fuel rest)
  | fuel + 1, '/' :: '/' :: rest => stripAux fuel (dropUntilNewline rest)
  | fuel + 1, c :: rest => c :: stripAux fuel rest

/-- The block/line comment strip applied before the final parse retry. -/
def stripComments (s : String) : String :=
  ⟨stripAux s.data.length s.data⟩

/-- The three parse strictness modes tried in order by `parseDeps`. -/
inductive SourceType : Type where
  | module
  | script
  | unambiguous
deriving DecidableEq, Repr

/-- Source `parseDeps`: read (`none` = `readFileSafe` threw, already caught),
extension gate, the three parse modes in order stopping at the first
success, the comment-stripped retry under `unambiguous`, and the empty-set
fallback.  The Babel parser is the external collaborator `parseWith`.
The function is total: no failure escapes to the caller. -/
def parseDeps (file : String) (read : Option String)
    (parseWith : SourceType → String → Option AstList) : List String :=
  match read with
  | none => []
  | some raw =>
    if !(jsExts.contains (strToLower (extname file))) then []
    else
      match parseWith .module raw with
      | some ast => dedupKeepFirst (depsList ast)
      | none =>
        match parseWith .script raw with
        | some ast => dedupKeepFirst (depsList ast)
        | none =>
          match parseWith .unambiguous raw with
          | some ast => dedupKeepFirst (depsList ast)
          | none =>
            match parseWith .unambiguous (stripComments raw) with
            | some ast => dedupKeepFirst (depsList ast)
            | none => []

/-! ## Concrete instances used by the closed theorems below -/

/-- Body of `add`: `return a + b;` (a return statement around a binary
expression — no visitor fires on either). -/
def addBody : AstList :=
  .ofList [.other (.ofList [.other (.ofList [.ident "a", .ident "b"])])]

/-- Statement `function add(a,b) ... return a+b` of Scenario A. -/
def addDecl : Ast :=
  .functionDecl (some "add") (.ofList [.ident "a", .ident "b"]) addBody

/-- Test expression `x > 0` — a binary expression. -/
def calcTest : Ast := .other (.ofList [.ident "x", .other .nil])

/-- Statement `return add(x, 1);`. -/
def calcRet1 : Ast :=
  .other (.ofList [.callExpr (.ident "add") (.ofList [.ident "x", .other .nil])])

/-- Statement `return add(x, -1);` (the `-1` is a unary expression). -/
def calcRet2 : Ast :=
  .other (.ofList [.callExpr (.ident "add")
    (.ofList [.ident "x", .other (.ofList [.other .nil])])])

/-- Statement `function calc(x) ... if (x>0) ... else ...` of Scenario A. -/
def calcDecl : Ast :=
  .functionDecl (some "calc") (.ofList [.ident "x"])
    (.ofList [.ifStmt calcTest (.ofList [calcRet1]) (.ofList [calcRet2])])

/-- The parsed program of Scenario A:
`function add(a,b){return a+b;} export function calc(x){ … }`. -/
def scenarioA : AstList :=
  .ofList [addDecl, .exportNamedDecl (.ofList [calcDecl]) none]

/-- The Scenario A source text. -/
def scenarioASource : String :=
  "function add(a,b)\x7breturn a+b;\x7d export function calc(x)\x7b if (x>0) \x7b return add(x,1); \x7d else \x7b return add(x,-1); \x7d \x7d"

/-- The Module Record the analyzer produces for Scenario A. -/
def scenarioAModule : ModuleInfo :=
  analyzeParsed "scenarioA.ts" [] scenarioASource scenarioA

/-- A module importing `./utils/helper` (Scenario B importer). -/
def mainModB : ModuleInfo :=
  ⟨"src/main.ts", "main", ["./utils/helper"], [], [], [], 0, 0⟩

/-- The sibling analyzed file at `src/utils/helper.ts` (Scenario B). -/
def helperModB : ModuleInfo :=
  ⟨"src/utils/helper.ts", "helper", [], [], [], [], 0, 0⟩

/-- The Scenario B batch in enumeration order. -/
def batchB : List ModuleInfo := [mainModB, helperModB]

/-- The program `import {helper} from "./utils/helper"`. -/
def importHelperAst : AstList := .ofList [.importDecl "./utils/helper"]

/-- A parse oracle that succeeds in declarative-module mode with the
Scenario B tree. -/
def parseB : SourceType → String → Option AstList :=
  fun st _ => match st with | .module => some importHelperAst | _ => none

/-- A record whose exports carry the utility keyword `format` while its
path has no utility-role segment. -/
def formatModC4 : ModuleInfo :=
  ⟨"src/core/things.ts", "things", [], ["formatDate"], ["formatDate"], [],
   120, 1⟩

/-- A record with API-keyword exports and a corroborating `api` path. -/
def apiModC4 : ModuleInfo :=
  ⟨"src/api/users.ts", "users", [], ["fetchUsers"], ["fetchUsers"], [], 80, 2⟩

/-- Two records that agree on every field `classifyModule` reads and differ
in `dependencies` and `size`. -/
def c7ModA : ModuleInfo := ⟨"src/x.ts", "x", ["depA"], [], [], [], 5, 1⟩

/-- See `c7ModA`. -/
def c7ModB : ModuleInfo := ⟨"src/x.ts", "x", ["depB", "depC"], [], [], [], 999, 1⟩

/-- A single exported named function declaration, for the duplication
witness. -/
def exportCalcOnly : List Ast :=
  [.exportNamedDecl (.ofList [.functionDecl (some "calc") .nil .nil]) none]

/-! # Theorems -/

/-- Claim C1, counterexample.  On Scenario A the analyzer does produce
`exports = ["calc"]`, but the functions list is `["add", "calc", "calc"]`
(not `["calc", "add"]`): the traversal visits the exported declaration
through both the named-export and the function-declaration visitor.  The
file complexity is 4, not 3: the `if` inside `calc` is counted once inside
`calculateFunctionComplexity` and once more by the file-level `IfStatement`
visitor. -/
theorem c1_counterexample :
    scenarioAModule.exports = ["calc"] ∧
    scenarioAModule.functions = ["add", "calc", "calc"] ∧
    scenarioAModule.complexity = 4 ∧
    scenarioAModule.functions ≠ ["calc", "add"] ∧
    scenarioAModule.complexity ≠ 3 := by
  decide

/-- Claim C1, amended.  Scenario A yields `exports = ["calc"]`,
`functions = ["add", "calc", "calc"]` (the exported `calc` is recorded
twice), per-function scores `calculateFunctionComplexity(add) = 1` and
`calculateFunctionComplexity(calc) = 2`, and a file total complexity of 4
(the two function scores plus the file-level count of the `if`). -/
theorem c1_amended :
    scenarioAModule.exports = ["calc"] ∧
    scenarioAModule.functions = ["add", "calc", "calc"] ∧
    calcFC (.ofList [.ident "a", .ident "b"]) addBody = 1 ∧
    calcFC (.ofList [.ident "x"])
      (.ofList [.ifStmt calcTest (.ofList [calcRet1]) (.ofList [calcRet2])]) = 2 ∧
    scenarioAModule.complexity = 4 := by
  decide

/-- Claim C2, counterexample.  In the batch `[main, helper]` where `main`
has the raw specifier `./utils/helper` and `helper` sits at
`src/utils/helper.ts`, the Resolved Graph contains the edge
`main → helper`, yet the dependency-matrix cell is negative: the matrix
only tests raw-set membership of the target's path/name/stripped path and
never consults the Resolved Graph. -/
theorem c2_counterexample :
    resolvedEdge batchB mainModB helperModB = true ∧
    matrixCell mainModB helperModB = false := by
  decide

/-- Claim C2, amended.  The dependency matrix cell (i, j) is affirmative
iff j's path, j's display name, or j's path with a trailing `.ts` or `.js`
removed is a member of i's raw dependency set; Resolved-Graph edges play no
part in the cell test. -/
theorem c2_amended (s t : ModuleInfo) :
    matrixCell s t = true ↔
      (t.path ∈ s.dependencies ∨ t.name ∈ s.dependencies ∨
       stripSuffixStr t.path ".ts" ∈ s.dependencies ∨
       stripSuffixStr t.path ".js" ∈ s.dependencies) := by
  simp [matrixCell, or_assoc]

/-- Claim C3, counterexample.  A file whose text `"function f("` is read
successfully (11 characters) but fails to parse degrades to the empty
record with `size = 0`, not `size = 11`: `createEmptyModuleInfo` hard-codes
`size: 0` regardless of whether the read succeeded. -/
theorem c3_counterexample :
    (analyzeModule "broken.ts" [] (some "function f(") fun _ => none).size = 0 ∧
    ("function f(" : String).length = 11 ∧
    (analyzeModule "broken.ts" [] (some "function f(") fun _ => none).size ≠
      ("function f(" : String).length := by
  decide

/-- Claim C3, amended.  For any file whose parse fails (even though the
text was read successfully), the resulting Module Record has complexity 0,
empty exports/functions/classes lists, and size 0 — the raw text length is
not recorded. -/
theorem c3_amended (filePath : String) (deps : List String) (code : String)
    (parseAst : String → Option AstList) (h : parseAst code = none) :
    analyzeModule filePath deps (some code) parseAst =
      createEmptyModuleInfo filePath deps ∧
    (analyzeModule filePath deps (some code) parseAst).complexity = 0 ∧
    (analyzeModule filePath deps (some code) parseAst).exports = [] ∧
    (analyzeModule filePath deps (some code) parseAst).functions = [] ∧
    (analyzeModule filePath deps (some code) parseAst).classes = [] ∧
    (analyzeModule filePath deps (some code) parseAst).size = 0 := by
  simp [analyzeModule, h, createEmptyModuleInfo]

/-- Witness for `c3_amended` at the concrete unparsable file. -/
theorem c3_witness :
    analyzeModule "broken.ts" [] (some "function f(") (fun _ => none) =
      createEmptyModuleInfo "broken.ts" [] :=
  (c3_amended "broken.ts" [] "function f(" (fun _ => none) rfl).1

/-- Claim C4, counterexample.  A record exporting `formatDate` (a
utility-role keyword) whose path `src/core/things.ts` contains no
utility-corroborating segment is nevertheless labeled `"Utilities"` by the
content rule: the utilities branch of `classifyByContent` has no path
check. -/
theorem c4_counterexample :
    classifyByContent formatModC4 = some "Utilities" ∧
    strContains (strToLower formatModC4.path) "util" = false ∧
    strContains (strToLower formatModC4.path) "helper" = false ∧
    strContains (strToLower formatModC4.path) "lib" = false ∧
    strContains (strToLower formatModC4.path) "format" = false := by
  decide

/-- Claim C4, amended.  The content rule returns "API Layer",
"UI Components" or "Data Layer" only when the exports carry the role's
keywords AND the lower-cased path contains a corroborating substring for
that role; the "Utilities" branch however fires on utility-keyword exports
alone, so a record with utility exports is always labeled by this rule. -/
theorem c4_amended (m : ModuleInfo) :
    (classifyByContent m = some "API Layer" →
      hasApiExports m = true ∧
        (strContains (strToLower m.path) "api" = true ∨
         strContains (strToLower m.path) "service" = true)) ∧
    (classifyByContent m = some "UI Components" →
      hasUiExports m = true ∧
        (strContains (strToLower m.path) "component" = true ∨
         strContains (strToLower m.path) "ui" = true)) ∧
    (classifyByContent m = some "Data Layer" →
      hasDataExports m = true ∧
        (strContains (strToLower m.path) "model" = true ∨
         strContains (strToLower m.path) "data" = true)) ∧
    (classifyByContent m = some "Utilities" → hasUtilExports m = true) ∧
    (hasUtilExports m = true → classifyByContent m ≠ none) := by
  cases hA : (hasApiExports m &&
      (strContains (strToLower m.path) "api" ||
        strContains (strToLower m.path) "service")) <;>
  cases hU : (hasUiExports m &&
      (strContains (strToLower m.path) "component" ||
        strContains (strToLower m.path) "ui")) <;>
  cases hD : (hasDataExports m &&
      (strContains (strToLower m.path) "model" ||
        strContains (strToLower m.path) "data")) <;>
  cases hT : hasUtilExports m <;>
    simp only [classifyByContent, hA, hU, hD, hT] <;> simp_all

/-- Witness for `c4_amended`: a record with `fetch`-keyword exports under
an `api/` path is classified "API Layer" with both conditions holding. -/
theorem c4_witness :
    hasApiExports apiModC4 = true ∧
      (strContains (strToLower apiModC4.path) "api" = true ∨
       strContains (strToLower apiModC4.path) "service" = true) :=
  (c4_amended apiModC4).1 (by decide)

/-- Claim C5, counterexample.  For Scenario B the raw dependency set is
`{"./utils/helper"}` and the Resolved Graph does contain the edge to the
helper record — but the exact(-basename) first loop finds nothing (it
compares the raw basename `helper.ts`, extension kept, against
`./utils/helper` and `helper`); the edge comes from the partial-match
fallback. -/
theorem c5_counterexample :
    parseDeps "src/main.ts" (some "import \x7bhelper\x7d from \"./utils/helper\"")
      parseB = ["./utils/helper"] ∧
    findExact batchB "./utils/helper" = none ∧
    findModuleByDependency batchB "./utils/helper" = some helperModB := by
  decide

/-- Claim C5, amended.  Scenario B yields the raw dependency set
`{"./utils/helper"}` and a Resolved-Graph edge from the importer to the
helper record, produced by the partial-match rule (the helper's display
name contains the specifier's stripped basename), the exact-basename rule
having failed. -/
theorem c5_amended :
    parseDeps "src/main.ts" (some "import \x7bhelper\x7d from \"./utils/helper\"")
      parseB = ["./utils/helper"] ∧
    findExact batchB "./utils/helper" = none ∧
    findPartial batchB "./utils/helper" = some helperModB ∧
    resolvedEdge batchB mainModB helperModB = true := by
  decide

/-- Claim C6, confirmed.  For every supported file, `parseDeps` tries the
three parse modes in order — declarative-module, plain-script, auto-detect
— and uses the first tree that succeeds; when all three fail it strips
comments and retries once in auto-detect mode; when that fails too (and
when the read itself failed) it returns the empty set.  The embedding is a
total function, so no failure of the collaborators escapes to the
caller. -/
theorem c6_strategy_order (file raw : String)
    (parseWith : SourceType → String → Option AstList)
    (hext : jsExts.contains (strToLower (extname file)) = true) :
    (∀ a, parseWith .module raw = some a →
      parseDeps file (some raw) parseWith = dedupKeepFirst (depsList a)) ∧
    (parseWith .module raw = none → ∀ a, parseWith .script raw = some a →
      parseDeps file (some raw) parseWith = dedupKeepFirst (depsList a)) ∧
    (parseWith .module raw = none → parseWith .script raw = none →
      ∀ a, parseWith .unambiguous raw = some a →
      parseDeps file (some raw) parseWith = dedupKeepFirst (depsList a)) ∧
    (parseWith .module raw = none → parseWith .script raw = none →
      parseWith .unambiguous raw = none →
      ∀ a, parseWith .unambiguous (stripComments raw) = some a →
      parseDeps file (some raw) parseWith = dedupKeepFirst (depsList a)) ∧
    (parseWith .module raw = none → parseWith .script raw = none →
      parseWith .unambiguous raw = none →
      parseWith .unambiguous (stripComments raw) = none →
      parseDeps file (some raw) parseWith = []) ∧
    parseDeps file none parseWith = [] := by
  have hmem : strToLower (extname file) ∈ jsExts := by
    simpa using hext
  refine ⟨?_, ?_, ?_, ?_, ?_, rfl⟩
  · intro a h1
    simp [parseDeps, hext, h1, hmem]
  · intro h1 a h2
    simp [parseDeps, hext, h1, h2, hmem]
  · intro h1 h2 a h3
    simp [parseDeps, hext, h1, h2, h3, hmem]
  · intro h1 h2 h3 a h4
    simp [parseDeps, hext, h1, h2, h3, h4, hmem]
  · intro h1 h2 h3 h4
    simp [parseDeps, hext, h1, h2, h3, h4, hmem]

/-- Witness for `c6_strategy_order`: a `.ts` file on which every parse
attempt fails yields the empty dependency set. -/
theorem c6_witness :
    parseDeps "src/a.ts" (some "안좋은 코드") (fun _ _ => none) = [] :=
  (c6_strategy_order "src/a.ts" "안좋은 코드" (fun _ _ => none)
    (by decide)).2.2.2.2.1 rfl rfl rfl rfl

/-- Claim C7, confirmed.  `classifyModule` is a pure function of the
record's `path`, `name`, `exports`, `functions`, `classes` and
`complexity` fields: two records agreeing on those fields (they may differ
in `dependencies` and `size`) receive the same label, so repeated
invocation on an unchanged record is trivially identical. -/
theorem c7_classify_deterministic (m₁ m₂ : ModuleInfo)
    (hpath : m₁.path = m₂.path) (hname : m₁.name = m₂.name)
    (hexp : m₁.exports = m₂.exports) (hfun : m₁.functions = m₂.functions)
    (hcls : m₁.classes = m₂.classes) (hcx : m₁.complexity = m₂.complexity) :
    classifyModule m₁ = classifyModule m₂ := by
  cases m₁
  cases m₂
  simp only [ModuleInfo.mk.injEq] at *
  subst hpath hname hexp hfun hcls hcx
  rfl

/-- Witness for `c7_classify_deterministic`: two records equal on all
classified fields but with different dependency sets and sizes get the
same label. -/
theorem c7_witness : classifyModule c7ModA = classifyModule c7ModB :=
  c7_classify_deterministic c7ModA c7ModB rfl rfl rfl rfl rfl rfl

/-- Claim C9, confirmed.  `calculateFunctionComplexity` (shared by all four
function-node visitors) starts at 1 and only ever adds non-negative
increments, so its rounded result is at least 1; consequently each of the
four function-node visitors of the file-level traversal adds at least one
full complexity unit (two half-units) to the file score. -/
theorem c9_function_complexity_at_least_one (pv id key : Option String)
    (ps b : AstList) :
    1 ≤ calcFC ps b ∧
    2 ≤ (visitNode pv (.functionDecl id ps b)).cx ∧
    2 ≤ (visitNode pv (.functionExpr ps b)).cx ∧
    2 ≤ (visitNode pv (.arrowFunctionExpr ps b)).cx ∧
    2 ≤ (visitNode pv (.objectMethod key ps b)).cx := by
  have h : 1 ≤ calcFC ps b := by
    unfold calcFC jsRound2
    omega
  refine ⟨h, ?_, ?_, ?_, ?_⟩ <;> simp [visitNode, Acc.append] <;> omega

/-- Claim C10, confirmed.  Any top-level `export function nm(...)`
statement contributes `nm` to the functions list at least twice: once from
the `ExportNamedDeclaration` visitor and once from the
`FunctionDeclaration` visitor fired when the traversal descends into the
declaration. -/
theorem c10_export_function_recorded_twice (stmts : List Ast) (nm : String)
    (ps b : AstList) (src : Option String)
    (h : Ast.exportNamedDecl (.cons (.functionDecl (some nm) ps b) .nil) src
      ∈ stmts) :
    2 ≤ (visitList none (AstList.ofList stmts)).functions.count nm := by
  induction stmts with
  | nil => simp at h
  | cons a l ih =>
    rcases List.mem_cons.mp h with h | h
    · subst h
      simp [AstList.ofList, visitList, visitNode, exportNamedAcc, Acc.append,
        List.count_append, List.count_cons]
    · have h2 := ih h
      simp only [AstList.ofList, visitList, Acc.append, List.count_append]
      omega

/-- Witness for `c10_export_function_recorded_twice` on the one-statement
program `export function calc() {}`. -/
theorem c10_witness :
    2 ≤ (visitList none (AstList.ofList exportCalcOnly)).functions.count
      "calc" :=
  c10_export_function_recorded_twice exportCalcOnly "calc" .nil .nil none
    (by simp [exportCalcOnly, AstList.ofList])

/-! Helper lemmas for the `categorizeModules` partition property, phrased
for an arbitrary per-module weight so that both the bucket-size sum and
the per-record multiplicity instantiate them. -/

theorem addFirstMatch_weight (w : ModuleInfo → Nat) (m : ModuleInfo)
    (lname : String) :
    ∀ ls : List ArchitectureLayer, (ls.any fun l => l.name == lname) = true →
      ((addFirstMatch ls lname m).map fun l => (l.modules.map w).sum).sum =
        ((ls.map fun l => (l.modules.map w).sum).sum) + w m := by
  intro ls
  induction ls with
  | nil => intro hc; simp at hc
  | cons l ls ih =>
    intro hc
    unfold addFirstMatch
    by_cases hl : (l.name == lname) = true
    · simp [hl]
      omega
    · simp only [List.any_cons, Bool.or_eq_true] at hc
      rcases hc with hc | hc
      · exact absurd hc hl
      · simp only [hl, if_false, Bool.false_eq_true, List.map_cons,
          List.sum_cons, ih hc]
        omega

theorem addToLast_weight (w : ModuleInfo → Nat) (m : ModuleInfo) :
    ∀ ls : List ArchitectureLayer, ls ≠ [] →
      ((addToLast ls m).map fun l => (l.modules.map w).sum).sum =
        ((ls.map fun l => (l.modules.map w).sum).sum) + w m := by
  intro ls
  induction ls with
  | nil => simp
  | cons l ls ih =>
    intro _
    cases ls with
    | nil => simp [addToLast]
    | cons l' ls' =>
      have h2 := ih (by simp)
      simp only [addToLast, List.map_cons, List.sum_cons] at h2 ⊢
      omega

theorem addFirstMatch_length (m : ModuleInfo) (lname : String) :
    ∀ ls : List ArchitectureLayer,
      (addFirstMatch ls lname m).length = ls.length := by
  intro ls
  induction ls with
  | nil => rfl
  | cons l ls ih =>
    unfold addFirstMatch
    by_cases hl : (l.name == lname) = true <;> simp [hl, ih]

theorem addToLast_length (m : ModuleInfo) :
    ∀ ls : List ArchitectureLayer, (addToLast ls m).length = ls.length := by
  intro ls
  induction ls with
  | nil => rfl
  | cons l ls ih =>
    cases ls with
    | nil => rfl
    | cons l' ls' => simp only [addToLast, List.length_cons, ih]

theorem placeModule_ne_nil (ls : List ArchitectureLayer) (m : ModuleInfo)
    (h : ls ≠ []) : placeModule ls m ≠ [] := by
  have hlen : (placeModule ls m).length = ls.length := by
    unfold placeModule
    by_cases hc : (ls.any fun l => l.name == classifyModule m) = true <;>
      simp [hc, addFirstMatch_length, addToLast_length]
  intro hnil
  rw [hnil] at hlen
  exact h (List.eq_nil_of_length_eq_zero hlen.symm)

theorem placeModule_weight (w : ModuleInfo → Nat)
    (ls : List ArchitectureLayer) (m : ModuleInfo) (h : ls ≠ []) :
    ((placeModule ls m).map fun l => (l.modules.map w).sum).sum =
      ((ls.map fun l => (l.modules.map w).sum).sum) + w m := by
  unfold placeModule
  by_cases hc : (ls.any fun l => l.name == classifyModule m) = true
  · simp only [hc, if_true]
    exact addFirstMatch_weight w m (classifyModule m) ls hc
  · simp only [hc, if_false, Bool.false_eq_true]
    exact addToLast_weight w m ls h

theorem foldl_placeModule_weight (w : ModuleInfo → Nat) :
    ∀ (mods : List ModuleInfo) (ls : List ArchitectureLayer), ls ≠ [] →
      ((mods.foldl placeModule ls).map fun l => (l.modules.map w).sum).sum =
        ((ls.map fun l => (l.modules.map w).sum).sum) + (mods.map w).sum := by
  intro mods
  induction mods with
  | nil => simp
  | cons mm mods ih =>
    intro ls h
    simp only [List.foldl_cons, List.map_cons, List.sum_cons]
    rw [ih (placeModule ls mm) (placeModule_ne_nil ls mm h),
      placeModule_weight w ls mm h]
    omega

theorem filter_nonempty_weight (w : ModuleInfo → Nat) :
    ∀ ls : List ArchitectureLayer,
      ((ls.filter fun l => !l.modules.isEmpty).map
        fun l => (l.modules.map w).sum).sum =
      (ls.map fun l => (l.modules.map w).sum).sum := by
  intro ls
  induction ls with
  | nil => rfl
  | cons l ls ih =>
    by_cases he : l.modules.isEmpty = true
    · have hmods : l.modules = [] := List.isEmpty_iff.mp he
      simp [List.filter_cons, he, hmods, ih]
    · simp [List.filter_cons, he, ih]

theorem sum_map_one (xs : List ModuleInfo) :
    (xs.map fun _ => (1 : Nat)).sum = xs.length := by
  induction xs with
  | nil => rfl
  | cons x xs ih => simp [ih, Nat.add_comm]

theorem sum_map_indicator (m : ModuleInfo) (xs : List ModuleInfo) :
    (xs.map fun x => if x = m then (1 : Nat) else 0).sum = xs.count m := by
  induction xs with
  | nil => rfl
  | cons x xs ih =>
    by_cases hx : x = m <;> simp [List.count_cons, hx, ih, Nat.add_comm]

/-- Claim C8, confirmed.  `categorizeModules` puts every Module Record of
the batch into exactly one layer bucket: the bucket sizes of the returned
layers sum to the number of analyzed records, and each record's
multiplicity across all buckets equals its multiplicity in the batch. -/
theorem c8_layer_partition (mods : List ModuleInfo) :
    (((categorizeModules mods).map fun l => l.modules.length).sum =
      mods.length) ∧
    ∀ m : ModuleInfo,
      ((categorizeModules mods).map fun l => l.modules.count m).sum =
        mods.count m := by
  constructor
  · simp only [← sum_map_one]
    unfold categorizeModules
    rw [filter_nonempty_weight,
      foldl_placeModule_weight _ _ _ (by simp [initialLayers])]
    simp [initialLayers]
  · intro m
    simp only [← sum_map_indicator m]
    unfold categorizeModules
    rw [filter_nonempty_weight,
      foldl_placeModule_weight _ _ _ (by simp [initialLayers])]
    simp [initialLayers]

end Hooker
